import Mathlib

/- Shallow embedding of the training-loop controller in trainer.py
   (class Trainer): the fit entry point with its epoch loop, checkpoint
   save and resume, scheduler stepping, the per-batch scaled-backward
   protocol of train_model, and the plot_loss_acc directory scan.

   Modelling conventions:
   - Losses and accuracies are rationals (the floats of the program are
     treated as exact arithmetic).
   - The external collaborators (model, crf loss, decoder, optimizer,
     scheduler, scaler, dataloaders) are opaque per the specification;
     a FitEnv records, for epoch e and batch i, the mean log-likelihood
     returned by model.crf and the accuracy_score of the decoded batch.
     The evolution of the model across batches is folded into that
     epoch/batch dependence.  Parameter blobs are opaque tokens (Nat).
   - References in the source to the methods and attributes of the class
     (train_model, dev_model, scheduler) are read as references to the
     corresponding members of the Trainer object.
   - The checkpoint files of one directory are an association list from
     path strings to stored structures; torch.save is a cons (lookup
     shadows, so saving over an existing identity overwrites it), and
     torch.load is a lookup.  A stored structure has optional fields so
     that a missing dictionary key (KeyError) can be represented.
   - The temporal claims are settled on explicit event traces: TEvent
     for the per-batch steps inside train_model, FEvent for the phases
     of one fit call. -/

/-- Collaborator data for one fit call: number of train and dev batches
per pass, and for epoch `e`, batch `i` the mean log-likelihood returned
by `model.crf` (train and dev pass) and the `accuracy_score` of the
decoded dev batch. -/
structure FitEnv where
  nTrain : Nat
  nDev : Nat
  train_ll : Nat → Nat → ℚ
  dev_ll : Nat → Nat → ℚ
  dev_acc_score : Nat → Nat → ℚ

/-- State of a Trainer object that the claims depend on: the nominal
batch size, the checkpoint directory, and the opaque model/optimizer
parameter blobs. -/
structure Trainer where
  batch_size : Nat
  model_path : String
  model_state : Nat
  optimizer_state : Nat
deriving DecidableEq

/-- Stored checkpoint structure, as a dictionary with optional entries:
a missing entry models an absent key in the saved dict. -/
structure StoredCheckpoint where
  model_state_dict : Option Nat
  optimizer_state_dict : Option Nat
  epoch : Option (List Nat)
  train_loss : Option (List ℚ)
  dev_loss : Option (List ℚ)
  dev_acc : Option (List ℚ)
deriving DecidableEq

/-- Checkpoint files on disk: an association list from full paths to
stored structures.  torch.save conses a new entry; lookup shadows, so a
save at an existing path silently overwrites it. -/
abbrev FS := List (String × StoredCheckpoint)

/-- Reading a file: torch.load is a lookup by path. -/
def FS.read (fs : FS) (p : String) : Option StoredCheckpoint :=
  List.lookup p fs

/-- Path of the checkpoint with identity `id`, following the source
pattern model_path + checkpoint_{id}.pth. -/
def ckptPath (t : Trainer) (id : Nat) : String :=
  t.model_path ++ "checkpoint_" ++ toString id ++ ".pth"

/-- Loss of one training batch: loss = -log_likelihood in train_model. -/
def trainBatchLoss (env : FitEnv) (e i : Nat) : ℚ :=
  -(env.train_ll e i)

/-- Loss of one dev batch: loss = -log_likelihood in dev_model. -/
def devBatchLoss (env : FitEnv) (e i : Nat) : ℚ :=
  -(env.dev_ll e i)

/-- Sum of the per-batch training losses of epoch `e` (the running
train_loss accumulator after the training pass). -/
def trainLossSum (env : FitEnv) (e : Nat) : ℚ :=
  ((List.range env.nTrain).map (trainBatchLoss env e)).sum

/-- Sum of the per-batch dev losses of epoch `e` (the running dev_loss
accumulator after the validation pass, the value passed to
scheduler.step). -/
def devLossSum (env : FitEnv) (e : Nat) : ℚ :=
  ((List.range env.nDev).map (devBatchLoss env e)).sum

/-- Reported training loss of epoch `e`:
train_loss / len(train_dataloader) * batch_size. -/
def reportedTrainLoss (env : FitEnv) (bs e : Nat) : ℚ :=
  trainLossSum env e / (env.nTrain : ℚ) * (bs : ℚ)

/-- Reported dev loss of epoch `e`:
dev_loss / len(dev_dataloader) * batch_size. -/
def reportedDevLoss (env : FitEnv) (bs e : Nat) : ℚ :=
  devLossSum env e / (env.nDev : ℚ) * (bs : ℚ)

/-- Reported dev accuracy of epoch `e`: np.mean over the acc_list
collected in the validation pass. -/
def devAccMean (env : FitEnv) (e : Nat) : ℚ :=
  ((List.range env.nDev).map (env.dev_acc_score e)).sum / (env.nDev : ℚ)

/-- One entry appended per completed epoch to the four parallel lists of
the fit loop (epoch_list, train_loss_list, dev_loss_list, dev_acc_list). -/
structure EpochRecord where
  epoch : Nat
  train_loss : ℚ
  dev_loss : ℚ
  dev_acc : ℚ
deriving DecidableEq

/-- Values appended by the body of the epoch loop for loop index `e`
(0-based), with `start_epoch` the resumed epoch counter. -/
def epochRecord (env : FitEnv) (bs start_epoch e : Nat) : EpochRecord :=
  { epoch := start_epoch + e + 1
    train_loss := reportedTrainLoss env bs e
    dev_loss := reportedDevLoss env bs e
    dev_acc := devAccMean env e }

/-- The epoch loop of fit: appends one EpochRecord per iteration. -/
def fitLoop (env : FitEnv) (bs start_epoch : Nat) : Nat → List EpochRecord
  | 0 => []
  | n + 1 => fitLoop env bs start_epoch n ++ [epochRecord env bs start_epoch n]

/-- Failure modes of the resume path of fit, by the Python exception the
source raises there: FileNotFoundError from torch.load on an absent
path, KeyError from a missing dict entry, IndexError from [-1] on an
empty history list. -/
inductive FitError where
  | checkpointNotFound
  | checkpointCorrupt
  | emptyHistory
deriving DecidableEq

/-- Presence check of one optional value, raising the given error when
it is absent. -/
def req {α : Type} (o : Option α) (e : FitError) : Except FitError α :=
  match o with
  | none => .error e
  | some a => .ok a

/-- Resume path of fit (pretrain nonzero): load the checkpoint file,
restore the model and optimizer blobs, and read the last epoch, train
loss and dev accuracy, in the access order of the source. -/
def resume (fs : FS) (t : Trainer) (pretrain : Nat) :
    Except FitError (Trainer × Nat) := do
  let s ← req (FS.read fs (ckptPath t pretrain)) .checkpointNotFound
  let ms ← req s.model_state_dict .checkpointCorrupt
  let os ← req s.optimizer_state_dict .checkpointCorrupt
  let es ← req s.epoch .checkpointCorrupt
  let start_epoch ← req es.getLast? .emptyHistory
  let tls ← req s.train_loss .checkpointCorrupt
  let _pre_loss ← req tls.getLast? .emptyHistory
  let das ← req s.dev_acc .checkpointCorrupt
  let _pre_acc ← req das.getLast? .emptyHistory
  return ({ t with model_state := ms, optimizer_state := os }, start_epoch)

/-- Checkpoint dict written at the end of fit: the epoch entry is
list(range(pretrain + 1, pretrain + epoch_num + 1)) and the three metric
entries are the lists accumulated by this call only. -/
def savedCheckpoint (env : FitEnv) (t : Trainer)
    (epoch_num pretrain start_epoch : Nat) : StoredCheckpoint :=
  { model_state_dict := some t.model_state
    optimizer_state_dict := some t.optimizer_state
    epoch := some (List.range' (pretrain + 1) epoch_num)
    train_loss := some ((fitLoop env t.batch_size start_epoch epoch_num).map
      EpochRecord.train_loss)
    dev_loss := some ((fitLoop env t.batch_size start_epoch epoch_num).map
      EpochRecord.dev_loss)
    dev_acc := some ((fitLoop env t.batch_size start_epoch epoch_num).map
      EpochRecord.dev_acc) }

/-- The fit entry point: optional resume, epoch loop, one torch.save at
identity pretrain + epoch_num.  A resume failure aborts the call with
the corresponding error and nothing is written. -/
def fit (env : FitEnv) (fs : FS) (t : Trainer) (epoch_num pretrain : Nat) :
    Except FitError (FS × Trainer) :=
  match (if pretrain = 0 then Except.ok (t, 0) else resume fs t pretrain) with
  | .error e => .error e
  | .ok (t1, start_epoch) =>
      .ok ((ckptPath t1 (pretrain + epoch_num),
            savedCheckpoint env t1 epoch_num pretrain start_epoch) :: fs, t1)

/-- Per-batch events of one training pass of train_model, tagged with
the batch index. -/
inductive TEvent where
  | zero_grad (i : Nat)
  | forward (i : Nat)
  | scale (i : Nat)
  | backward (i : Nat)
  | optim_step (i : Nat)
  | scaler_update (i : Nat)
deriving DecidableEq

/-- Events emitted for batch `i` of train_model, in source order:
optimizer.zero_grad(); forward and loss under autocast;
scaler.scale(loss).backward(); scaler.step(optimizer); scaler.update(). -/
def batchTrace (i : Nat) : List TEvent :=
  [.zero_grad i, .forward i, .scale i, .backward i, .optim_step i, .scaler_update i]

/-- Event trace of one full training pass over `n` batches. -/
def trainTrace (n : Nat) : List TEvent :=
  (List.range n).flatMap batchTrace

/-- The event of the training pass at block position `r` of batch `i`. -/
def batchEventAt (i r : Nat) : TEvent :=
  if r = 0 then .zero_grad i
  else if r = 1 then .forward i
  else if r = 2 then .scale i
  else if r = 3 then .backward i
  else if r = 4 then .optim_step i
  else .scaler_update i

/-- Phase-level events of one fit call, tagged with the epoch loop
index: the per-batch train events, the dev batches, the scheduler step
with its metric argument, and the final checkpoint save. -/
inductive FEvent where
  | train (e : Nat) (ev : TEvent)
  | dev_batch (e i : Nat)
  | sched_step (e : Nat) (metric : ℚ)
  | save (id : Nat)

/-- Event trace of one iteration of the epoch loop: the full training
pass, then the full validation pass, then scheduler.step with the raw
summed dev loss (the per-sample scaling of the reported losses happens
after this call). -/
def epochTrace (env : FitEnv) (e : Nat) : List FEvent :=
  (trainTrace env.nTrain).map (FEvent.train e)
    ++ (List.range env.nDev).map (FEvent.dev_batch e)
    ++ [FEvent.sched_step e (devLossSum env e)]

/-- Number of events of one epoch. -/
def epochLen (env : FitEnv) : Nat :=
  6 * env.nTrain + env.nDev + 1

/-- Event trace of one fit call: the epoch loop followed by exactly one
checkpoint save at identity pretrain + epoch_num. -/
def fitTrace (env : FitEnv) (epoch_num pretrain : Nat) : List FEvent :=
  (List.range epoch_num).flatMap (epochTrace env) ++ [FEvent.save (pretrain + epoch_num)]

/-- Metric series accumulated by the directory scan of plot_loss_acc. -/
structure PlotData where
  epochs : List Nat
  train_losses : List ℚ
  dev_losses : List ℚ
  dev_accs : List ℚ
deriving DecidableEq

/-- Reading one checkpoint file inside the try block of plot_loss_acc:
none models a raised exception (unreadable file, or a missing key among
the four entries the scan reads), which the source logs and skips. -/
def readPlotFile (f : Option StoredCheckpoint) : Option PlotData :=
  match f with
  | none => none
  | some s =>
      match s.epoch, s.train_loss, s.dev_loss, s.dev_acc with
      | some es, some tls, some dls, some das => some ⟨es, tls, dls, das⟩
      | _, _, _, _ => none

/-- Directory scan of plot_loss_acc: extend the four accumulator lists
with the entries of each readable file, skipping unreadable ones. -/
def plotScan (files : List (Option StoredCheckpoint)) : PlotData :=
  files.foldl
    (fun acc f =>
      match readPlotFile f with
      | none => acc
      | some d =>
          ⟨acc.epochs ++ d.epochs, acc.train_losses ++ d.train_losses,
           acc.dev_losses ++ d.dev_losses, acc.dev_accs ++ d.dev_accs⟩)
    ⟨[], [], [], []⟩

/-- Effect of plot_loss_acc on the trainer and the scanned data: the
source assigns self.model_path = model_path before globbing, then runs
the scan; the chart rendering has no further effect on the trainer. -/
def plot_loss_acc (t : Trainer) (model_path : String)
    (files : List (Option StoredCheckpoint)) : Trainer × PlotData :=
  ({ t with model_path := model_path }, plotScan files)

/-- Loadability of a stored structure through the resume path: all five
entries the source reads are present and the three history lists read
with [-1] are nonempty. -/
def loadable (s : StoredCheckpoint) : Prop :=
  s.model_state_dict.isSome ∧ s.optimizer_state_dict.isSome ∧
    s.epoch.getD [] ≠ [] ∧ s.train_loss.getD [] ≠ [] ∧ s.dev_acc.getD [] ≠ []

instance : DecidablePred loadable := by
  intro s
  unfold loadable
  infer_instance

/-- Concrete environment with one train and one dev batch, used to
instantiate the general theorems. -/
def envW : FitEnv :=
  { nTrain := 1
    nDev := 1
    train_ll := fun _ _ => -1
    dev_ll := fun _ _ => -1
    dev_acc_score := fun _ _ => 1 }

/-- Concrete environment for the reported-loss scenario: two training
batches with losses 1 and 3. -/
def envScenario : FitEnv :=
  { nTrain := 2
    nDev := 1
    train_ll := fun _ i => if i = 0 then -1 else -3
    dev_ll := fun _ _ => -2
    dev_acc_score := fun _ _ => 1 }

/-- Trainer with the constructor defaults of the source. -/
def t0 : Trainer :=
  { batch_size := 512
    model_path := "./model/checkpoint/"
    model_state := 0
    optimizer_state := 0 }

/-- Stored checkpoint with every entry present and two epochs of
history. -/
def sFull : StoredCheckpoint :=
  { model_state_dict := some 7
    optimizer_state_dict := some 8
    epoch := some [1, 2]
    train_loss := some [5, 4]
    dev_loss := some [6, 5]
    dev_acc := some [1, 1] }

/-- Stored checkpoint that lacks the model_state_dict entry. -/
def sMissing : StoredCheckpoint :=
  { model_state_dict := none
    optimizer_state_dict := some 8
    epoch := some [1]
    train_loss := some [1]
    dev_loss := some [1]
    dev_acc := some [1] }

/-- Stored checkpoint whose epoch entry is present but empty while the
train_loss entry is missing: reading it reaches the [-1] on the empty
epoch list before the missing key. -/
def sCorner : StoredCheckpoint :=
  { model_state_dict := some 7
    optimizer_state_dict := some 8
    epoch := some []
    train_loss := none
    dev_loss := some []
    dev_acc := some [] }

/-- Stored checkpoint readable by fit but lacking the dev_loss entry,
so that the plot scan (which also reads dev_loss) skips it. -/
def sNoDevLoss : StoredCheckpoint :=
  { model_state_dict := some 7
    optimizer_state_dict := some 8
    epoch := some [3]
    train_loss := some [2]
    dev_loss := none
    dev_acc := some [1] }

/-- Second fully-populated stored checkpoint. -/
def sFull2 : StoredCheckpoint :=
  { model_state_dict := some 9
    optimizer_state_dict := some 10
    epoch := some [3, 4]
    train_loss := some [3, 2]
    dev_loss := some [4, 3]
    dev_acc := some [0, 1] }

/-- Directory holding one checkpoint of identity 5. -/
def fsW : FS := [(ckptPath t0 5, sFull)]

/-- Directory holding a corrupt checkpoint of identity 5. -/
def fsMissing : FS := [(ckptPath t0 5, sMissing)]

/-- Directory holding the corner-case checkpoint of identity 5. -/
def fsCorner : FS := [(ckptPath t0 5, sCorner)]

theorem fitLoop_eq_map (env : FitEnv) (bs s n : Nat) :
    fitLoop env bs s n = (List.range n).map (epochRecord env bs s) := by
  induction n with
  | zero => rfl
  | succ k ih => rw [fitLoop, ih, List.range_succ, List.map_append]; rfl

theorem flatMap_const_length {α : Type} (L : Nat → List α) (c : Nat)
    (hL : ∀ e, (L e).length = c) (n : Nat) :
    ((List.range n).flatMap L).length = n * c := by
  induction n with
  | zero => simp
  | succ k ih =>
      rw [List.range_succ, List.flatMap_append, List.length_append, ih]
      simp [hL k, Nat.succ_mul]

theorem getElem?_flatMap_const_at {α : Type} (L : Nat → List α) (c : Nat)
    (hL : ∀ e, (L e).length = c) (n e r : Nat) (he : e < n) (hr : r < c) :
    ((List.range n).flatMap L)[e * c + r]? = (L e)[r]? := by
  induction n with
  | zero => omega
  | succ k ih =>
      rw [List.range_succ, List.flatMap_append]
      rcases Nat.lt_or_ge e k with h | h
      · rw [List.getElem?_append, if_pos ?side]
        · exact ih h
        · rw [flatMap_const_length L c hL k]
          calc e * c + r < e * c + c := by omega
            _ = (e + 1) * c := by ring
            _ ≤ k * c := Nat.mul_le_mul_right c h
      · have hek : e = k := by omega
        subst hek
        rw [List.getElem?_append_right (by rw [flatMap_const_length L c hL e]; omega)]
        rw [flatMap_const_length L c hL e]
        simp only [Nat.add_sub_cancel_left]
        simp [List.getElem?_append, hL e, hr]

theorem getElem?_flatMap_const {α : Type} (L : Nat → List α) (c : Nat)
    (hL : ∀ e, (L e).length = c) (n m : Nat) (hm : m < n * c) :
    ((List.range n).flatMap L)[m]? = (L (m / c))[m % c]? := by
  have hc : 0 < c := by
    rcases Nat.eq_zero_or_pos c with h | h
    · subst h; simp at hm
    · exact h
  have he : m / c < n := Nat.div_lt_of_lt_mul (by rw [Nat.mul_comm]; exact hm)
  have hr : m % c < c := Nat.mod_lt _ hc
  have hm2 : m / c * c + m % c = m := by
    rw [Nat.mul_comm]
    exact Nat.div_add_mod m c
  conv_lhs => rw [← hm2]
  exact getElem?_flatMap_const_at L c hL n (m / c) (m % c) he hr

theorem trainTrace_length (n : Nat) : (trainTrace n).length = n * 6 :=
  flatMap_const_length batchTrace 6 (fun _ => rfl) n

theorem batchTrace_getElem? (i r : Nat) (hr : r < 6) :
    (batchTrace i)[r]? = some (batchEventAt i r) := by
  interval_cases r <;> rfl

theorem trainTrace_getElem? (n m : Nat) (hm : m < n * 6) :
    (trainTrace n)[m]? = some (batchEventAt (m / 6) (m % 6)) := by
  rw [trainTrace, getElem?_flatMap_const batchTrace 6 (fun _ => rfl) n m hm]
  exact batchTrace_getElem? (m / 6) (m % 6) (Nat.mod_lt _ (by norm_num))

theorem batchEventAt_inj (q r q1 r1 : Nat) (hr : r < 6) (hr1 : r1 < 6)
    (h : batchEventAt q r = batchEventAt q1 r1) : q = q1 ∧ r = r1 := by
  interval_cases r <;> interval_cases r1 <;> simp_all [batchEventAt]

theorem trainTrace_index (n m i r : Nat) (hr : r < 6)
    (h : (trainTrace n)[m]? = some (batchEventAt i r)) :
    m = 6 * i + r ∧ i < n := by
  have hm : m < n * 6 := by
    by_contra hge
    rw [List.getElem?_eq_none (by rw [trainTrace_length]; omega)] at h
    exact Option.noConfusion h
  rw [trainTrace_getElem? n m hm] at h
  have h2 := batchEventAt_inj (m / 6) (m % 6) i r (Nat.mod_lt _ (by norm_num)) hr
    (Option.some.inj h)
  omega

theorem epochTrace_length (env : FitEnv) (e : Nat) :
    (epochTrace env e).length = epochLen env := by
  simp [epochTrace, epochLen, trainTrace_length]
  omega

theorem epochLen_pos (env : FitEnv) : 0 < epochLen env := by
  unfold epochLen; omega

theorem epochTrace_assoc (env : FitEnv) (e : Nat) :
    epochTrace env e = (trainTrace env.nTrain).map (FEvent.train e) ++
      ((List.range env.nDev).map (FEvent.dev_batch e) ++
        [FEvent.sched_step e (devLossSum env e)]) := by
  unfold epochTrace
  rw [List.append_assoc]

theorem epochTrace_cases (env : FitEnv) (e r : Nat) (ev : FEvent)
    (h : (epochTrace env e)[r]? = some ev) :
    (∃ tev, r < 6 * env.nTrain ∧ ev = .train e tev) ∨
    (∃ i, i < env.nDev ∧ r = 6 * env.nTrain + i ∧ ev = .dev_batch e i) ∨
    (r = 6 * env.nTrain + env.nDev ∧ ev = .sched_step e (devLossSum env e)) := by
  rw [epochTrace_assoc] at h
  by_cases h1 : r < 6 * env.nTrain
  · left
    rw [List.getElem?_append, if_pos (by rw [List.length_map, trainTrace_length]; omega)] at h
    rw [List.getElem?_map] at h
    rcases h2 : (trainTrace env.nTrain)[r]? with _ | tev
    · rw [h2] at h; simp at h
    · rw [h2] at h
      simp only [Option.map_some'] at h
      exact ⟨tev, h1, (Option.some.inj h).symm⟩
  · rw [List.getElem?_append_right (by rw [List.length_map, trainTrace_length]; omega)] at h
    rw [List.length_map, trainTrace_length] at h
    by_cases h2 : r - env.nTrain * 6 < env.nDev
    · right; left
      rw [List.getElem?_append, if_pos (by simpa using h2)] at h
      rw [List.getElem?_map, List.getElem?_range h2] at h
      simp only [Option.map_some'] at h
      exact ⟨r - env.nTrain * 6, h2, by omega, (Option.some.inj h).symm⟩
    · right; right
      rw [List.getElem?_append_right (by simpa using h2)] at h
      simp only [List.length_map, List.length_range] at h
      rcases h3 : r - env.nTrain * 6 - env.nDev with _ | k
      · rw [h3] at h
        simp only [List.getElem?_cons_zero] at h
        exact ⟨by omega, (Option.some.inj h).symm⟩
      · rw [h3] at h
        simp at h

theorem epochTrace_sched (env : FitEnv) (e : Nat) :
    (epochTrace env e)[6 * env.nTrain + env.nDev]? =
      some (.sched_step e (devLossSum env e)) := by
  rw [epochTrace_assoc]
  rw [List.getElem?_append_right (by rw [List.length_map, trainTrace_length]; omega)]
  rw [List.length_map, trainTrace_length]
  rw [List.getElem?_append_right (by simp only [List.length_map, List.length_range]; omega)]
  simp only [List.length_map, List.length_range]
  rw [show 6 * env.nTrain + env.nDev - env.nTrain * 6 - env.nDev = 0 from by omega]
  rfl

theorem fitTrace_length (env : FitEnv) (N p : Nat) :
    (fitTrace env N p).length = N * epochLen env + 1 := by
  simp [fitTrace, flatMap_const_length (epochTrace env) (epochLen env)
    (epochTrace_length env) N]

theorem fitTrace_getElem?_lt (env : FitEnv) (N p m : Nat)
    (hm : m < N * epochLen env) :
    (fitTrace env N p)[m]? =
      (epochTrace env (m / epochLen env))[m % epochLen env]? := by
  unfold fitTrace
  rw [List.getElem?_append, if_pos (by
    rw [flatMap_const_length (epochTrace env) (epochLen env) (epochTrace_length env) N]
    exact hm)]
  exact getElem?_flatMap_const (epochTrace env) (epochLen env)
    (epochTrace_length env) N m hm

theorem fitTrace_getElem?_save (env : FitEnv) (N p : Nat) :
    (fitTrace env N p)[N * epochLen env]? = some (.save (p + N)) := by
  unfold fitTrace
  rw [List.getElem?_append_right (by
    rw [flatMap_const_length (epochTrace env) (epochLen env) (epochTrace_length env) N])]
  rw [flatMap_const_length (epochTrace env) (epochLen env) (epochTrace_length env) N]
  simp

theorem fitTrace_getElem?_at (env : FitEnv) (N p e r : Nat) (he : e < N)
    (hr : r < epochLen env) :
    (fitTrace env N p)[e * epochLen env + r]? = (epochTrace env e)[r]? := by
  unfold fitTrace
  rw [List.getElem?_append, if_pos (by
    rw [flatMap_const_length (epochTrace env) (epochLen env) (epochTrace_length env) N]
    calc e * epochLen env + r < e * epochLen env + epochLen env := by omega
      _ = (e + 1) * epochLen env := by ring
      _ ≤ N * epochLen env := Nat.mul_le_mul_right _ he)]
  exact getElem?_flatMap_const_at (epochTrace env) (epochLen env)
    (epochTrace_length env) N e r he hr

theorem req_none {α β : Type} (e : FitError) (f : α → Except FitError β) :
    (req (none : Option α) e >>= f) = .error e :=
  rfl

theorem req_some {α β : Type} (a : α) (e : FitError) (f : α → Except FitError β) :
    (req (some a) e >>= f) = f a :=
  rfl

theorem resume_not_found (fs : FS) (t : Trainer) (p : Nat)
    (h : FS.read fs (ckptPath t p) = none) :
    resume fs t p = .error .checkpointNotFound := by
  unfold resume
  rw [h, req_none]

theorem resume_ok_inv (fs : FS) (t : Trainer) (p : Nat) (t1 : Trainer) (se : Nat)
    (h : resume fs t p = .ok (t1, se)) :
    ∃ s ms os es tls das,
      FS.read fs (ckptPath t p) = some s ∧
      s.model_state_dict = some ms ∧ s.optimizer_state_dict = some os ∧
      s.epoch = some es ∧ es.getLast? = some se ∧
      s.train_loss = some tls ∧ tls.getLast?.isSome ∧
      s.dev_acc = some das ∧ das.getLast?.isSome ∧
      t1 = { t with model_state := ms, optimizer_state := os } := by
  unfold resume at h
  rcases h0 : FS.read fs (ckptPath t p) with _ | s
  · rw [h0, req_none] at h; simp at h
  rw [h0, req_some] at h
  rcases h1 : s.model_state_dict with _ | ms
  · rw [h1, req_none] at h; simp at h
  rw [h1, req_some] at h
  rcases h2 : s.optimizer_state_dict with _ | os
  · rw [h2, req_none] at h; simp at h
  rw [h2, req_some] at h
  rcases h3 : s.epoch with _ | es
  · rw [h3, req_none] at h; simp at h
  rw [h3, req_some] at h
  rcases h4 : es.getLast? with _ | se1
  · rw [h4, req_none] at h; simp at h
  rw [h4, req_some] at h
  rcases h5 : s.train_loss with _ | tls
  · rw [h5, req_none] at h; simp at h
  rw [h5, req_some] at h
  rcases h6 : tls.getLast? with _ | pl
  · rw [h6, req_none] at h; simp at h
  rw [h6, req_some] at h
  rcases h7 : s.dev_acc with _ | das
  · rw [h7, req_none] at h; simp at h
  rw [h7, req_some] at h
  rcases h8 : das.getLast? with _ | pa
  · rw [h8, req_none] at h; simp at h
  rw [h8, req_some] at h
  have h9 := Except.ok.inj h
  have ht : t1 = { t with model_state := ms, optimizer_state := os } :=
    (congrArg Prod.fst h9).symm
  have hs : se1 = se := congrArg Prod.snd h9
  exact ⟨s, ms, os, es, tls, das, rfl, h1, h2, h3, hs ▸ h4, h5,
    by rw [h6]; rfl, h7, by rw [h8]; rfl, ht⟩

theorem resume_of_loadable (fs : FS) (t : Trainer) (p : Nat) (s : StoredCheckpoint)
    (hs : FS.read fs (ckptPath t p) = some s) (hl : loadable s) :
    ∃ ms os se, s.model_state_dict = some ms ∧ s.optimizer_state_dict = some os ∧
      resume fs t p = .ok ({ t with model_state := ms, optimizer_state := os }, se) := by
  obtain ⟨h1, h2, h3, h4, h5⟩ := hl
  rcases hms : s.model_state_dict with _ | ms
  · rw [hms] at h1; simp at h1
  rcases hos : s.optimizer_state_dict with _ | os
  · rw [hos] at h2; simp at h2
  rcases hes : s.epoch with _ | es
  · rw [hes] at h3; simp at h3
  rcases hls : s.train_loss with _ | tls
  · rw [hls] at h4; simp at h4
  rcases hda : s.dev_acc with _ | das
  · rw [hda] at h5; simp at h5
  have hes1 : es ≠ [] := by rw [hes] at h3; simpa using h3
  have hls1 : tls ≠ [] := by rw [hls] at h4; simpa using h4
  have hda1 : das ≠ [] := by rw [hda] at h5; simpa using h5
  obtain ⟨se, hse⟩ := Option.isSome_iff_exists.mp (List.getLast?_isSome.mpr hes1)
  obtain ⟨pl, hpl⟩ := Option.isSome_iff_exists.mp (List.getLast?_isSome.mpr hls1)
  obtain ⟨pa, hpa⟩ := Option.isSome_iff_exists.mp (List.getLast?_isSome.mpr hda1)
  refine ⟨ms, os, se, rfl, rfl, ?_⟩
  unfold resume
  rw [hs, req_some, hms, req_some, hos, req_some, hes, req_some, hse, req_some,
    hls, req_some, hpl, req_some, hda, req_some, hpa, req_some]
  rfl

theorem fit_pretrain_zero (env : FitEnv) (fs : FS) (t : Trainer) (N : Nat) :
    fit env fs t N 0 =
      .ok ((ckptPath t N, savedCheckpoint env t N 0 0) :: fs, t) := by
  unfold fit
  simp

theorem fit_resume_error (env : FitEnv) (fs : FS) (t : Trainer) (N p : Nat)
    (hp : p ≠ 0) (e : FitError) (h : resume fs t p = .error e) :
    fit env fs t N p = .error e := by
  unfold fit
  rw [if_neg hp, h]

theorem fit_resume_ok (env : FitEnv) (fs : FS) (t : Trainer) (N p : Nat)
    (hp : p ≠ 0) (t1 : Trainer) (se : Nat) (h : resume fs t p = .ok (t1, se)) :
    fit env fs t N p =
      .ok ((ckptPath t1 (p + N), savedCheckpoint env t1 N p se) :: fs, t1) := by
  unfold fit
  rw [if_neg hp, h]

theorem trainTrace_at_block (n i r : Nat) (hi : i < n) (hr : r < 6) :
    (trainTrace n)[6 * i + r]? = some (batchEventAt i r) := by
  rw [trainTrace_getElem? n _ (by omega)]
  rw [show (6 * i + r) / 6 = i from by omega, show (6 * i + r) % 6 = r from by omega]

/-- C4: for every training batch `i`, the scaled-backward protocol of
train_model runs in exactly the order scale, backward, optimizer step,
scaler update: the four events sit at the four consecutive positions
6i+2 .. 6i+5 of the training trace, and each of them occurs nowhere
else, so none is skipped, duplicated or reordered. -/
theorem scaled_backward_protocol_order (n i : Nat) (hi : i < n) :
    ((trainTrace n)[6 * i + 2]? = some (.scale i) ∧
     (trainTrace n)[6 * i + 3]? = some (.backward i) ∧
     (trainTrace n)[6 * i + 4]? = some (.optim_step i) ∧
     (trainTrace n)[6 * i + 5]? = some (.scaler_update i)) ∧
    ((∀ m, (trainTrace n)[m]? = some (.scale i) → m = 6 * i + 2) ∧
     (∀ m, (trainTrace n)[m]? = some (.backward i) → m = 6 * i + 3) ∧
     (∀ m, (trainTrace n)[m]? = some (.optim_step i) → m = 6 * i + 4) ∧
     (∀ m, (trainTrace n)[m]? = some (.scaler_update i) → m = 6 * i + 5)) := by
  refine ⟨⟨?_, ?_, ?_, ?_⟩, ?_, ?_, ?_, ?_⟩
  · exact trainTrace_at_block n i 2 hi (by norm_num)
  · exact trainTrace_at_block n i 3 hi (by norm_num)
  · exact trainTrace_at_block n i 4 hi (by norm_num)
  · exact trainTrace_at_block n i 5 hi (by norm_num)
  · intro m hm
    have h := trainTrace_index n m i 2 (by norm_num) hm
    omega
  · intro m hm
    have h := trainTrace_index n m i 3 (by norm_num) hm
    omega
  · intro m hm
    have h := trainTrace_index n m i 4 (by norm_num) hm
    omega
  · intro m hm
    have h := trainTrace_index n m i 5 (by norm_num) hm
    omega

theorem scaled_backward_protocol_order_witness :
    0 < 1 ∧
    (((trainTrace 1)[6 * 0 + 2]? = some (.scale 0) ∧
      (trainTrace 1)[6 * 0 + 3]? = some (.backward 0) ∧
      (trainTrace 1)[6 * 0 + 4]? = some (.optim_step 0) ∧
      (trainTrace 1)[6 * 0 + 5]? = some (.scaler_update 0)) ∧
     ((∀ m, (trainTrace 1)[m]? = some (.scale 0) → m = 6 * 0 + 2) ∧
      (∀ m, (trainTrace 1)[m]? = some (.backward 0) → m = 6 * 0 + 3) ∧
      (∀ m, (trainTrace 1)[m]? = some (.optim_step 0) → m = 6 * 0 + 4) ∧
      (∀ m, (trainTrace 1)[m]? = some (.scaler_update 0) → m = 6 * 0 + 5))) :=
  ⟨Nat.zero_lt_one, scaled_backward_protocol_order 1 0 Nat.zero_lt_one⟩

/-- C5: in the training phase, the gradient zeroing of batch i+1 happens
strictly after the optimizer step of batch i and strictly before the
forward pass of batch i+1. -/
theorem zero_grad_between_batches (n i j k l : Nat)
    (hj : (trainTrace n)[j]? = some (.optim_step i))
    (hk : (trainTrace n)[k]? = some (.zero_grad (i + 1)))
    (hl : (trainTrace n)[l]? = some (.forward (i + 1))) :
    j < k ∧ k < l := by
  have h1 := trainTrace_index n j i 4 (by norm_num) hj
  have h2 := trainTrace_index n k (i + 1) 0 (by norm_num) hk
  have h3 := trainTrace_index n l (i + 1) 1 (by norm_num) hl
  omega

theorem zero_grad_between_batches_witness :
    ((trainTrace 2)[4]? = some (.optim_step 0) ∧
     (trainTrace 2)[6]? = some (.zero_grad 1) ∧
     (trainTrace 2)[7]? = some (.forward 1)) ∧
    (4 < 6 ∧ 6 < 7) :=
  ⟨⟨rfl, rfl, rfl⟩, zero_grad_between_batches 2 0 4 6 7 rfl rfl rfl⟩

/-- C2: in every epoch e of a fit call, the scheduler step occurs at
exactly one position of the fit trace, its metric argument is the
unnormalized sum of the per-batch validation losses of that epoch (the
per-sample scaling is applied only after this call), and that position
is after every training and validation event of the epoch and before
the checkpoint save. -/
theorem scheduler_step_once_per_epoch_raw_sum (env : FitEnv) (N p e : Nat)
    (he : e < N) :
    ∃ j : Nat, (fitTrace env N p)[j]? = some (.sched_step e (devLossSum env e)) ∧
      (∀ (j1 : Nat) (m : ℚ), (fitTrace env N p)[j1]? = some (.sched_step e m) →
        j1 = j ∧ m = devLossSum env e) ∧
      (∀ k i : Nat, (fitTrace env N p)[k]? = some (.dev_batch e i) → k < j) ∧
      (∀ (k : Nat) (tev : TEvent), (fitTrace env N p)[k]? = some (.train e tev) → k < j) ∧
      (∀ l id : Nat, (fitTrace env N p)[l]? = some (.save id) → j < l) := by
  refine ⟨e * epochLen env + (6 * env.nTrain + env.nDev), ?_, ?_, ?_, ?_, ?_⟩
  · rw [fitTrace_getElem?_at env N p e _ he (by unfold epochLen; omega)]
    exact epochTrace_sched env e
  · intro j1 m h
    have hlen : j1 < N * epochLen env + 1 := by
      by_contra hge
      rw [List.getElem?_eq_none (by rw [fitTrace_length]; omega)] at h
      simp at h
    rcases Nat.lt_or_ge j1 (N * epochLen env) with hlt | hge2
    · rw [fitTrace_getElem?_lt env N p j1 hlt] at h
      rcases epochTrace_cases env (j1 / epochLen env) (j1 % epochLen env) _ h with
        ⟨tev, _, habs⟩ | ⟨i, _, _, habs⟩ | ⟨hr, hev⟩
      · simp at habs
      · simp at habs
      · injection hev with hA hB
        constructor
        · calc j1 = epochLen env * (j1 / epochLen env) + j1 % epochLen env :=
                (Nat.div_add_mod j1 (epochLen env)).symm
            _ = e * epochLen env + (6 * env.nTrain + env.nDev) := by
                rw [← hA, hr, Nat.mul_comm]
        · rw [hB, ← hA]
    · have hj1 : j1 = N * epochLen env := by omega
      rw [hj1, fitTrace_getElem?_save] at h
      have := Option.some.inj h
      simp at this
  · intro k i h
    have hlen : k < N * epochLen env + 1 := by
      by_contra hge
      rw [List.getElem?_eq_none (by rw [fitTrace_length]; omega)] at h
      simp at h
    rcases Nat.lt_or_ge k (N * epochLen env) with hlt | hge2
    · rw [fitTrace_getElem?_lt env N p k hlt] at h
      rcases epochTrace_cases env (k / epochLen env) (k % epochLen env) _ h with
        ⟨tev, _, habs⟩ | ⟨i1, hi1, hr, hev⟩ | ⟨hr, habs⟩
      · simp at habs
      · injection hev with hA hB
        calc k = epochLen env * (k / epochLen env) + k % epochLen env :=
              (Nat.div_add_mod k (epochLen env)).symm
          _ = e * epochLen env + (6 * env.nTrain + i1) := by
              rw [← hA, hr, Nat.mul_comm]
          _ < e * epochLen env + (6 * env.nTrain + env.nDev) := by omega
      · simp at habs
    · have hk : k = N * epochLen env := by omega
      rw [hk, fitTrace_getElem?_save] at h
      have := Option.some.inj h
      simp at this
  · intro k tev h
    have hlen : k < N * epochLen env + 1 := by
      by_contra hge
      rw [List.getElem?_eq_none (by rw [fitTrace_length]; omega)] at h
      simp at h
    rcases Nat.lt_or_ge k (N * epochLen env) with hlt | hge2
    · rw [fitTrace_getElem?_lt env N p k hlt] at h
      rcases epochTrace_cases env (k / epochLen env) (k % epochLen env) _ h with
        ⟨tev1, hr1, hev⟩ | ⟨i1, hi1, hr, habs⟩ | ⟨hr, habs⟩
      · injection hev with hA hB
        calc k = epochLen env * (k / epochLen env) + k % epochLen env :=
              (Nat.div_add_mod k (epochLen env)).symm
          _ = e * epochLen env + k % epochLen env := by rw [← hA, Nat.mul_comm]
          _ < e * epochLen env + (6 * env.nTrain + env.nDev) := by omega
      · simp at habs
      · simp at habs
    · have hk : k = N * epochLen env := by omega
      rw [hk, fitTrace_getElem?_save] at h
      have := Option.some.inj h
      simp at this
  · intro l id h
    have hlen : l < N * epochLen env + 1 := by
      by_contra hge
      rw [List.getElem?_eq_none (by rw [fitTrace_length]; omega)] at h
      simp at h
    rcases Nat.lt_or_ge l (N * epochLen env) with hlt | hge2
    · rw [fitTrace_getElem?_lt env N p l hlt] at h
      rcases epochTrace_cases env (l / epochLen env) (l % epochLen env) _ h with
        ⟨tev1, hr1, habs⟩ | ⟨i1, hi1, hr, habs⟩ | ⟨hr, habs⟩ <;> simp at habs
    · have hl2 : l = N * epochLen env := by omega
      rw [hl2]
      calc e * epochLen env + (6 * env.nTrain + env.nDev)
          < e * epochLen env + epochLen env := by unfold epochLen; omega
        _ = (e + 1) * epochLen env := by ring
        _ ≤ N * epochLen env := Nat.mul_le_mul_right _ he

theorem scheduler_step_once_per_epoch_raw_sum_witness :
    0 < 1 ∧
    (∃ j : Nat, (fitTrace envW 1 0)[j]? = some (.sched_step 0 (devLossSum envW 0)) ∧
      (∀ (j1 : Nat) (m : ℚ), (fitTrace envW 1 0)[j1]? = some (.sched_step 0 m) →
        j1 = j ∧ m = devLossSum envW 0) ∧
      (∀ k i : Nat, (fitTrace envW 1 0)[k]? = some (.dev_batch 0 i) → k < j) ∧
      (∀ (k : Nat) (tev : TEvent), (fitTrace envW 1 0)[k]? = some (.train 0 tev) → k < j) ∧
      (∀ l id : Nat, (fitTrace envW 1 0)[l]? = some (.save id) → j < l)) :=
  ⟨Nat.zero_lt_one, scheduler_step_once_per_epoch_raw_sum envW 1 0 0 Nat.zero_lt_one⟩

/-- C3: for every epoch e of the fit loop, the recorded training loss is
the sum of the per-batch training losses divided by the number of
batches of the training loader and multiplied by the nominal batch
size, and the recorded validation loss applies the same per-sample
scaling over the validation loader. -/
theorem reported_train_loss_formula (env : FitEnv) (bs s n e : Nat) (he : e < n) :
    ∃ r : EpochRecord, (fitLoop env bs s n)[e]? = some r ∧
      r.train_loss =
        ((List.range env.nTrain).map (fun i => -(env.train_ll e i))).sum /
          (env.nTrain : ℚ) * (bs : ℚ) ∧
      r.dev_loss =
        ((List.range env.nDev).map (fun i => -(env.dev_ll e i))).sum /
          (env.nDev : ℚ) * (bs : ℚ) := by
  refine ⟨epochRecord env bs s e, ?_, rfl, rfl⟩
  rw [fitLoop_eq_map, List.getElem?_map, List.getElem?_range he]
  rfl

theorem reported_train_loss_formula_witness :
    0 < 1 ∧
    (fitLoop envScenario 512 0 1).map EpochRecord.train_loss = [1024] ∧
    (∃ r : EpochRecord, (fitLoop envScenario 512 0 1)[0]? = some r ∧
      r.train_loss =
        ((List.range envScenario.nTrain).map
          (fun i => -(envScenario.train_ll 0 i))).sum /
          (envScenario.nTrain : ℚ) * ((512 : Nat) : ℚ) ∧
      r.dev_loss =
        ((List.range envScenario.nDev).map
          (fun i => -(envScenario.dev_ll 0 i))).sum /
          (envScenario.nDev : ℚ) * ((512 : Nat) : ℚ)) :=
  ⟨Nat.zero_lt_one,
   by
    norm_num [fitLoop, epochRecord, reportedTrainLoss, trainLossSum,
      trainBatchLoss, envScenario, List.range_succ],
   reported_train_loss_formula envScenario 512 0 1 0 Nat.zero_lt_one⟩

/-- C9: every record of the fit loop has a dev accuracy in [0, 1] and
nonnegative training and validation losses, provided both loaders are
nonempty (an epoch only completes in the source when neither batch
count is zero, since the reported losses divide by them), the crf
collaborator returns non-positive mean log-likelihoods, and the
accuracy scores lie in [0, 1]. -/
theorem epoch_record_bounds (env : FitEnv) (bs s n : Nat)
    (hT : 0 < env.nTrain) (hD : 0 < env.nDev)
    (htl : ∀ e i, env.train_ll e i ≤ 0)
    (hdl : ∀ e i, env.dev_ll e i ≤ 0)
    (hacc : ∀ e i, 0 ≤ env.dev_acc_score e i ∧ env.dev_acc_score e i ≤ 1) :
    ∀ r ∈ fitLoop env bs s n,
      0 ≤ r.train_loss ∧ 0 ≤ r.dev_loss ∧ 0 ≤ r.dev_acc ∧ r.dev_acc ≤ 1 := by
  intro r hr
  rw [fitLoop_eq_map] at hr
  obtain ⟨e, he, rfl⟩ := List.mem_map.mp hr
  have hDq : (0 : ℚ) < (env.nDev : ℚ) := by exact_mod_cast hD
  refine ⟨?_, ?_, ?_, ?_⟩
  · apply mul_nonneg
    · apply div_nonneg
      · apply List.sum_nonneg
        intro x hx
        obtain ⟨i, hi, rfl⟩ := List.mem_map.mp hx
        have := htl e i
        unfold trainBatchLoss
        linarith
      · positivity
    · positivity
  · apply mul_nonneg
    · apply div_nonneg
      · apply List.sum_nonneg
        intro x hx
        obtain ⟨i, hi, rfl⟩ := List.mem_map.mp hx
        have := hdl e i
        unfold devBatchLoss
        linarith
      · positivity
    · positivity
  · apply div_nonneg
    · apply List.sum_nonneg
      intro x hx
      obtain ⟨i, hi, rfl⟩ := List.mem_map.mp hx
      exact (hacc e i).1
    · positivity
  · show devAccMean env e ≤ 1
    unfold devAccMean
    rw [div_le_one hDq]
    calc ((List.range env.nDev).map (env.dev_acc_score e)).sum
        ≤ ((List.range env.nDev).map (env.dev_acc_score e)).length • (1 : ℚ) := by
          apply List.sum_le_card_nsmul
          intro x hx
          obtain ⟨i, hi, rfl⟩ := List.mem_map.mp hx
          exact (hacc e i).2
      _ = (env.nDev : ℚ) := by simp

theorem epoch_record_bounds_witness :
    0 < envW.nTrain ∧ 0 < envW.nDev ∧
    (∀ r ∈ fitLoop envW 512 0 2,
      0 ≤ r.train_loss ∧ 0 ≤ r.dev_loss ∧ 0 ≤ r.dev_acc ∧ r.dev_acc ≤ 1) :=
  ⟨Nat.zero_lt_one, Nat.zero_lt_one,
   epoch_record_bounds envW 512 0 2 Nat.zero_lt_one Nat.zero_lt_one
     (fun _ _ => by norm_num [envW]) (fun _ _ => by norm_num [envW])
     (fun _ _ => by norm_num [envW])⟩

theorem FS.read_cons_self (fs : FS) (k : String) (v : StoredCheckpoint) :
    FS.read ((k, v) :: fs) k = some v := by
  simp [FS.read, List.lookup]

theorem FS.read_cons_ne (fs : FS) (k : String) (v : StoredCheckpoint)
    (q : String) (hq : q ≠ k) : FS.read ((k, v) :: fs) q = FS.read fs q := by
  have hb : (q == k) = false := beq_eq_false_iff_ne.mpr hq
  simp [FS.read, List.lookup, hb]

theorem savedCheckpoint_fields (env : FitEnv) (t : Trainer) (N p s : Nat) :
    (savedCheckpoint env t N p s).epoch =
        some ((List.range N).map (fun i => p + i + 1)) ∧
    (savedCheckpoint env t N p s).train_loss =
        some ((List.range N).map (reportedTrainLoss env t.batch_size)) ∧
    (savedCheckpoint env t N p s).dev_loss =
        some ((List.range N).map (reportedDevLoss env t.batch_size)) ∧
    (savedCheckpoint env t N p s).dev_acc =
        some ((List.range N).map (devAccMean env)) := by
  have hrange : List.range' (p + 1) N = (List.range N).map (fun i => p + i + 1) := by
    rw [List.range'_eq_map_range]
    apply List.map_congr_left
    intro a _
    omega
  refine ⟨?_, ?_, ?_, ?_⟩
  · show some (List.range' (p + 1) N) = _
    rw [hrange]
  · show some ((fitLoop env t.batch_size s N).map EpochRecord.train_loss) = _
    rw [fitLoop_eq_map, List.map_map]
    rfl
  · show some ((fitLoop env t.batch_size s N).map EpochRecord.dev_loss) = _
    rw [fitLoop_eq_map, List.map_map]
    rfl
  · show some ((fitLoop env t.batch_size s N).map EpochRecord.dev_acc) = _
    rw [fitLoop_eq_map, List.map_map]
    rfl

/-- C1: a completed fit call with epoch_num at least 1 writes exactly
one checkpoint, at identity pretrain + epoch_num, whose epoch sequence
is pretrain+1, ..., pretrain+epoch_num and whose three metric sequences
have length epoch_num and consist exactly of the per-epoch values of
this call (no record of the prior lineage is in the written file); every
other path of the directory is untouched. -/
theorem fit_writes_single_checkpoint (env : FitEnv) (fs : FS) (t : Trainer)
    (epoch_num pretrain : Nat) (_hN : 1 ≤ epoch_num) (fsOut : FS) (tOut : Trainer)
    (h : fit env fs t epoch_num pretrain = .ok (fsOut, tOut)) :
    ∃ ck : StoredCheckpoint,
      fsOut = (ckptPath tOut (pretrain + epoch_num), ck) :: fs ∧
      tOut.model_path = t.model_path ∧ tOut.batch_size = t.batch_size ∧
      ck.epoch = some ((List.range epoch_num).map (fun i => pretrain + i + 1)) ∧
      ck.train_loss =
        some ((List.range epoch_num).map (reportedTrainLoss env t.batch_size)) ∧
      ck.dev_loss =
        some ((List.range epoch_num).map (reportedDevLoss env t.batch_size)) ∧
      ck.dev_acc = some ((List.range epoch_num).map (devAccMean env)) ∧
      ((List.range epoch_num).map (fun i => pretrain + i + 1)).length = epoch_num ∧
      ((List.range epoch_num).map (reportedTrainLoss env t.batch_size)).length
        = epoch_num ∧
      ((List.range epoch_num).map (reportedDevLoss env t.batch_size)).length
        = epoch_num ∧
      ((List.range epoch_num).map (devAccMean env)).length = epoch_num ∧
      (∀ q : String, q ≠ ckptPath tOut (pretrain + epoch_num) →
        FS.read fsOut q = FS.read fs q) := by
  by_cases hp : pretrain = 0
  · subst hp
    rw [fit_pretrain_zero] at h
    have h9 := Except.ok.inj h
    have hfs : fsOut = (ckptPath t epoch_num, savedCheckpoint env t epoch_num 0 0) :: fs :=
      (congrArg Prod.fst h9).symm
    have ht : tOut = t := (congrArg Prod.snd h9).symm
    subst ht
    obtain ⟨he1, he2, he3, he4⟩ := savedCheckpoint_fields env tOut epoch_num 0 0
    refine ⟨savedCheckpoint env tOut epoch_num 0 0, ?_, rfl, rfl, he1, he2, he3, he4,
      by simp, by simp, by simp, by simp, ?_⟩
    · rw [hfs]
      norm_num
    · intro q hq
      rw [hfs]
      apply FS.read_cons_ne
      simpa using hq
  · unfold fit at h
    rw [if_neg hp] at h
    rcases hres : resume fs t pretrain with e | ⟨t1, se⟩
    · rw [hres] at h
      simp at h
    · rw [hres] at h
      have h9 := Except.ok.inj h
      have hfs : fsOut =
          (ckptPath t1 (pretrain + epoch_num),
            savedCheckpoint env t1 epoch_num pretrain se) :: fs :=
        (congrArg Prod.fst h9).symm
      have ht : tOut = t1 := (congrArg Prod.snd h9).symm
      subst ht
      obtain ⟨s, ms, os, es, tls, das, _, _, _, _, _, _, _, _, _, ht1⟩ :=
        resume_ok_inv fs t pretrain tOut se hres
      have hmp : tOut.model_path = t.model_path := by rw [ht1]
      have hbs : tOut.batch_size = t.batch_size := by rw [ht1]
      obtain ⟨he1, he2, he3, he4⟩ :=
        savedCheckpoint_fields env tOut epoch_num pretrain se
      rw [hbs] at he2 he3
      refine ⟨savedCheckpoint env tOut epoch_num pretrain se, hfs, hmp, hbs,
        he1, he2, he3, he4, by simp, by simp, by simp, by simp, ?_⟩
      intro q hq
      rw [hfs]
      exact FS.read_cons_ne fs _ _ q hq

theorem fit_writes_single_checkpoint_witness :
    1 ≤ 1 ∧
    (∃ ck : StoredCheckpoint,
      ((ckptPath t0 1, savedCheckpoint envW t0 1 0 0) :: ([] : FS)) =
        (ckptPath t0 (0 + 1), ck) :: ([] : FS) ∧
      t0.model_path = t0.model_path ∧ t0.batch_size = t0.batch_size ∧
      ck.epoch = some ((List.range 1).map (fun i => 0 + i + 1)) ∧
      ck.train_loss = some ((List.range 1).map (reportedTrainLoss envW t0.batch_size)) ∧
      ck.dev_loss = some ((List.range 1).map (reportedDevLoss envW t0.batch_size)) ∧
      ck.dev_acc = some ((List.range 1).map (devAccMean envW)) ∧
      ((List.range 1).map (fun i => 0 + i + 1)).length = 1 ∧
      ((List.range 1).map (reportedTrainLoss envW t0.batch_size)).length = 1 ∧
      ((List.range 1).map (reportedDevLoss envW t0.batch_size)).length = 1 ∧
      ((List.range 1).map (devAccMean envW)).length = 1 ∧
      (∀ q : String, q ≠ ckptPath t0 (0 + 1) →
        FS.read ((ckptPath t0 1, savedCheckpoint envW t0 1 0 0) :: ([] : FS)) q =
          FS.read ([] : FS) q)) :=
  ⟨le_refl 1,
   fit_writes_single_checkpoint envW [] t0 1 0 (le_refl 1)
     ((ckptPath t0 1, savedCheckpoint envW t0 1 0 0) :: ([] : FS)) t0 rfl⟩

/-- C6 counterexample: a stored checkpoint that lacks the required
train_loss entry but whose epoch entry is present and empty makes fit
abort with the empty-history IndexError of the source, not with the
corrupt-checkpoint error, so the claim that a missing required field
always fails with CheckpointCorruptError is false. -/
theorem resume_empty_history_counterexample :
    FS.read fsCorner (ckptPath t0 5) = some sCorner ∧
    sCorner.train_loss = none ∧
    fit envW fsCorner t0 1 5 = .error .emptyHistory ∧
    FitError.emptyHistory ≠ FitError.checkpointCorrupt :=
  ⟨rfl, rfl, rfl, by decide⟩

/-- C6 (amended): when fit is called with pretrain > 0, it aborts with
checkpointNotFound if the checkpoint file is absent, and with
checkpointCorrupt if the stored structure lacks one of the five entries
the resume path reads (model_state_dict, optimizer_state_dict, epoch,
train_loss, dev_acc), provided every history list read before the
missing entry is present and nonempty (otherwise the source raises an
IndexError first); any such resume failure aborts the whole fit call
before any training and nothing is written. -/
theorem resume_failure_aborts_fit (env : FitEnv) (fs : FS) (t : Trainer)
    (N p : Nat) (hp : p ≠ 0) :
    (FS.read fs (ckptPath t p) = none →
      fit env fs t N p = .error .checkpointNotFound) ∧
    (∀ s : StoredCheckpoint, FS.read fs (ckptPath t p) = some s →
      (s.model_state_dict = none ∨
       (s.model_state_dict ≠ none ∧ s.optimizer_state_dict = none) ∨
       (s.model_state_dict ≠ none ∧ s.optimizer_state_dict ≠ none ∧
         s.epoch = none) ∨
       (s.model_state_dict ≠ none ∧ s.optimizer_state_dict ≠ none ∧
         s.epoch.getD [] ≠ [] ∧ s.train_loss = none) ∨
       (s.model_state_dict ≠ none ∧ s.optimizer_state_dict ≠ none ∧
         s.epoch.getD [] ≠ [] ∧ s.train_loss.getD [] ≠ [] ∧
         s.dev_acc = none)) →
      fit env fs t N p = .error .checkpointCorrupt) := by
  constructor
  · intro h
    exact fit_resume_error env fs t N p hp _ (resume_not_found fs t p h)
  · intro s hs hcase
    apply fit_resume_error env fs t N p hp
    unfold resume
    rw [hs, req_some]
    rcases hcase with h1 | ⟨h1, h2⟩ | ⟨h1, h2, h3⟩ | ⟨h1, h2, h3, h4⟩ |
      ⟨h1, h2, h3, h4, h5⟩
    · rw [h1, req_none]
    · obtain ⟨ms, hms⟩ := Option.ne_none_iff_exists'.mp h1
      rw [hms, req_some, h2, req_none]
    · obtain ⟨ms, hms⟩ := Option.ne_none_iff_exists'.mp h1
      obtain ⟨os, hos⟩ := Option.ne_none_iff_exists'.mp h2
      rw [hms, req_some, hos, req_some, h3, req_none]
    · obtain ⟨ms, hms⟩ := Option.ne_none_iff_exists'.mp h1
      obtain ⟨os, hos⟩ := Option.ne_none_iff_exists'.mp h2
      rcases hes : s.epoch with _ | es
      · rw [hes] at h3; simp at h3
      have hesne : es ≠ [] := by rw [hes] at h3; simpa using h3
      obtain ⟨se, hse⟩ := Option.isSome_iff_exists.mp (List.getLast?_isSome.mpr hesne)
      rw [hms, req_some, hos, req_some, req_some, hse, req_some, h4, req_none]
    · obtain ⟨ms, hms⟩ := Option.ne_none_iff_exists'.mp h1
      obtain ⟨os, hos⟩ := Option.ne_none_iff_exists'.mp h2
      rcases hes : s.epoch with _ | es
      · rw [hes] at h3; simp at h3
      have hesne : es ≠ [] := by rw [hes] at h3; simpa using h3
      obtain ⟨se, hse⟩ := Option.isSome_iff_exists.mp (List.getLast?_isSome.mpr hesne)
      rcases hls : s.train_loss with _ | tls
      · rw [hls] at h4; simp at h4
      have hlsne : tls ≠ [] := by rw [hls] at h4; simpa using h4
      obtain ⟨pl, hpl⟩ := Option.isSome_iff_exists.mp (List.getLast?_isSome.mpr hlsne)
      rw [hms, req_some, hos, req_some, req_some, hse, req_some,
        req_some, hpl, req_some, h5, req_none]

theorem resume_failure_aborts_fit_witness :
    (5 ≠ 0) ∧ FS.read fsMissing (ckptPath t0 5) = some sMissing ∧
    sMissing.model_state_dict = none ∧
    fit envW fsMissing t0 1 5 = .error .checkpointCorrupt :=
  ⟨by decide, rfl, rfl,
   (resume_failure_aborts_fit envW fsMissing t0 1 5 (by decide)).2
     sMissing rfl (Or.inl rfl)⟩

/-- C7: a file that fails to read during the directory scan of
plot_loss_acc is skipped and the scan continues: with one corrupt file
between two readable checkpoints, the merged metric series consists of
exactly the entries of the two readable files, in scan order. -/
theorem plot_scan_skips_corrupt (v1 c v2 : Option StoredCheckpoint)
    (d1 d2 : PlotData) (h1 : readPlotFile v1 = some d1)
    (hc : readPlotFile c = none) (h2 : readPlotFile v2 = some d2) :
    plotScan [v1, c, v2] =
      ⟨d1.epochs ++ d2.epochs, d1.train_losses ++ d2.train_losses,
       d1.dev_losses ++ d2.dev_losses, d1.dev_accs ++ d2.dev_accs⟩ := by
  unfold plotScan
  simp only [List.foldl_cons, List.foldl_nil, h1, hc, h2]
  simp

theorem plot_scan_skips_corrupt_witness :
    readPlotFile (some sFull) = some ⟨[1, 2], [5, 4], [6, 5], [1, 1]⟩ ∧
    readPlotFile (some sNoDevLoss) = none ∧
    readPlotFile (some sFull2) = some ⟨[3, 4], [3, 2], [4, 3], [0, 1]⟩ ∧
    plotScan [some sFull, some sNoDevLoss, some sFull2] =
      ⟨([1, 2] : List Nat) ++ [3, 4], ([5, 4] : List ℚ) ++ [3, 2],
       ([6, 5] : List ℚ) ++ [4, 3], ([1, 1] : List ℚ) ++ [0, 1]⟩ :=
  ⟨rfl, rfl, rfl,
   plot_scan_skips_corrupt (some sFull) (some sNoDevLoss) (some sFull2)
     ⟨[1, 2], [5, 4], [6, 5], [1, 1]⟩ ⟨[3, 4], [3, 2], [4, 3], [0, 1]⟩
     rfl rfl rfl⟩

/-- C8 counterexample: plot_loss_acc assigns its model_path argument to
the trainer, so the checkpoint save path that subsequent fit calls use
does change, refuting the claim that the call leaves every
training-relevant trainer field unchanged. -/
theorem plot_changes_model_path_counterexample :
    (plot_loss_acc t0 "./results/" []).1.model_path ≠ t0.model_path ∧
    ckptPath (plot_loss_acc t0 "./results/" []).1 1 ≠ ckptPath t0 1 := by
  constructor <;> decide

/-- C8 (amended): plot_loss_acc sets the model_path field of the
trainer to its argument — thereby changing the checkpoint directory
used by subsequent fit calls — and changes no other trainer field; the
scan result is a pure function of the directory contents. -/
theorem plot_sets_model_path_only (t : Trainer) (mp : String)
    (files : List (Option StoredCheckpoint)) :
    (plot_loss_acc t mp files).1.model_path = mp ∧
    (plot_loss_acc t mp files).1.batch_size = t.batch_size ∧
    (plot_loss_acc t mp files).1.model_state = t.model_state ∧
    (plot_loss_acc t mp files).1.optimizer_state = t.optimizer_state ∧
    (plot_loss_acc t mp files).2 = plotScan files :=
  ⟨rfl, rfl, rfl, rfl, rfl⟩

/-- C10: fit with epoch_num = 0 and pretrain = p > 0 resumes from
checkpoint p and then writes a checkpoint at the same identity p,
silently overwriting the file it resumed from with one whose epoch and
metric sequences are all empty, although the resumed file had a
nonempty history; the lineage recorded at that identity is lost. -/
theorem fit_zero_epochs_overwrites_checkpoint (env : FitEnv) (fs : FS)
    (t : Trainer) (p : Nat) (s : StoredCheckpoint) (hp : p ≠ 0)
    (hs : FS.read fs (ckptPath t p) = some s) (hl : loadable s) :
    ∃ (tOut : Trainer) (ck : StoredCheckpoint),
      fit env fs t 0 p = .ok ((ckptPath t p, ck) :: fs, tOut) ∧
      ck.epoch = some [] ∧ ck.train_loss = some [] ∧
      ck.dev_loss = some [] ∧ ck.dev_acc = some [] ∧
      FS.read ((ckptPath t p, ck) :: fs) (ckptPath t p) = some ck ∧
      s.epoch.getD [] ≠ [] := by
  obtain ⟨ms, os, se, hms, hos, hres⟩ := resume_of_loadable fs t p s hs hl
  refine ⟨{ t with model_state := ms, optimizer_state := os },
    savedCheckpoint env { t with model_state := ms, optimizer_state := os } 0 p se,
    ?_, rfl, rfl, rfl, rfl, FS.read_cons_self fs (ckptPath t p) _, hl.2.2.1⟩
  have hfit := fit_resume_ok env fs t 0 p hp
    { t with model_state := ms, optimizer_state := os } se hres
  rw [hfit]
  simp only [Nat.add_zero]
  rfl

theorem fit_zero_epochs_overwrites_checkpoint_witness :
    (5 ≠ 0) ∧ FS.read fsW (ckptPath t0 5) = some sFull ∧ loadable sFull ∧
    (∃ (tOut : Trainer) (ck : StoredCheckpoint),
      fit envW fsW t0 0 5 = .ok ((ckptPath t0 5, ck) :: fsW, tOut) ∧
      ck.epoch = some [] ∧ ck.train_loss = some [] ∧
      ck.dev_loss = some [] ∧ ck.dev_acc = some [] ∧
      FS.read ((ckptPath t0 5, ck) :: fsW) (ckptPath t0 5) = some ck ∧
      sFull.epoch.getD [] ≠ []) :=
  ⟨by decide, rfl, by decide,
   fit_zero_epochs_overwrites_checkpoint envW fsW t0 5 sFull (by decide)
     rfl (by decide)⟩
